import Mathlib

/-!
Shallow embedding of the `yellow` Go package (src/yellow.go): a stopwatch
primitive that notifies a handler when an instrumented operation outlives its
deadline.  Go instants and durations are modelled as integer nanosecond
counts; handler-method invocations are recorded as explicit events; the single
one-shot timer armed by `time.AfterFunc` is modelled by its immutable schedule
data (stored in the stopwatch's timer field) together with the mutable
one-shot state that in Go lives behind the `*time.Timer` pointer.
-/

namespace Yellow

/-- Go `time.Time` instants, modelled as integer nanoseconds since an epoch. -/
abbrev Time := Int

/-- Go `time.Duration`: a signed count of nanoseconds. -/
abbrev Duration := Int

/-- A notification delivered to a handler: `Completed(started)` or
`TimedOut(started)`. -/
inductive Event where
  | completed (started : Time)
  | timedOut (started : Time)
deriving DecidableEq, Repr

/-- The dynamic handler values that can reach `Deadline`: arbitrary caller
handlers exposing only the required `Completed` method, arbitrary handlers
that additionally implement the `TimedOutHandler` interface, and the three
concrete implementations of the package (`funcHandler`, `logHandler`,
`logWarningHandler`).  Arbitrary handlers and wrapped functions are
identified by an index; log handlers carry their format string and the
rendered text of their arguments. -/
inductive Handler where
  | completedOnly (id : Nat)
  | withTimedOut (id : Nat)
  | funcHandler (f : Nat)
  | logHandler (format : List Char) (args : List (List Char))
  | logWarningHandler (format : List Char) (args : List (List Char))
deriving DecidableEq, Repr

/-- The Go type assertion `handler.(TimedOutHandler)` in `Deadline`
(yellow.go line 91): it succeeds exactly for handler types that declare a
`TimedOut` method.  Of the package's own types only `logWarningHandler`
does; `funcHandler` and `logHandler` do not. -/
def Handler.isTimedOutHandler : Handler → Bool
  | .withTimedOut _ => true
  | .logWarningHandler _ _ => true
  | _ => false

/-- `HandleFunc` (yellow.go lines 41-43): wraps a plain `func(time.Time)` as a
`funcHandler`. -/
def HandleFunc (f : Nat) : Handler := Handler.funcHandler f

/-- Body of `funcHandler.Completed` (yellow.go lines 36-38): `f(t)`.  The
result records the calls made to the wrapped function, each as the pair of
the function's index and the argument passed. -/
def funcHandlerCompleted (f : Nat) (t : Time) : List (Nat × Time) := [(f, t)]

/-- Rendering of one Printf verb against one argument.  Arguments carry their
rendered text; `%q` additionally wraps it in Go quotes.  Models the verb
substitution of the Go `fmt` machinery used by `log.Printf`. -/
def renderVerb (c : Char) (a : List Char) : List Char :=
  if c = 'q' then '"' :: (a ++ ['"']) else a

/-- Model of `log.Printf` formatting of one line: literal characters are
copied verbatim, `%%` emits a percent sign, and any other `%`-verb consumes
the next argument. -/
def printfRender : List Char → List (List Char) → List Char
  | [], _ => []
  | c :: rest, args =>
    if c = '%' then
      match rest with
      | [] => ['%']
      | v :: rest2 =>
        if v = '%' then '%' :: printfRender rest2 args
        else
          match args with
          | [] => '%' :: v :: printfRender rest2 []
          | a :: args2 => renderVerb v a ++ printfRender rest2 args2
    else c :: printfRender rest args

/-- `logWarningHandler.TimedOut` (yellow.go lines 121-123):
`log.Printf("Taking too long: "+l.format+" "+time.Since(started).String(), l.args...)`.
The elapsed duration's rendered string is passed in as `elapsed`; note the Go
code splices it into the format string before formatting. -/
def logWarningHandlerTimedOut (format : List Char) (args : List (List Char))
    (elapsed : List Char) : List Char :=
  printfRender (("Taking too long: ".toList ++ format) ++ (" ".toList ++ elapsed)) args

/-- `logHandler.Completed` (yellow.go lines 126-128):
`log.Printf("Finally finished: "+l.format+" "+time.Since(started).String(), l.args...)`. -/
def logHandlerCompleted (format : List Char) (args : List (List Char))
    (elapsed : List Char) : List Char :=
  printfRender (("Finally finished: ".toList ++ format) ++ (" ".toList ++ elapsed)) args

/-- The immutable data of the one-shot timer armed by
`time.AfterFunc(d, func() { h.TimedOut(rv.started) })` (yellow.go line 92):
the instant it is scheduled to fire and the `rv.started` value captured by
the callback closure. -/
structure Timer where
  expiry : Time
  cap : Time
deriving DecidableEq, Repr

/-- Runtime state of the one-shot timer: still pending, already ran its
callback, or stopped.  In Go this state lives behind the `*time.Timer`
pointer, not in the `Stopwatch` struct itself. -/
inductive TimerState where
  | armed
  | fired
  | stopped
deriving DecidableEq, Repr

/-- `Stopwatch` (yellow.go lines 54-59): handler, start instant, deadline, and
the timer field, where `none` models a nil `*time.Timer`. -/
structure Stopwatch where
  handler : Handler
  started : Time
  d : Duration
  t : Option Timer
deriving DecidableEq, Repr

/-- A possibly-nil stopwatch pointer together with the mutable state of the
timer it points to.  `ts` is meaningful only when the stopwatch's `t` field
is set; it models the pointee of the `*time.Timer`. -/
structure SwState where
  sw : Option Stopwatch
  ts : TimerState
deriving DecidableEq, Repr

/-- `(*time.Timer).Stop` of the Go standard library: reports whether it
stopped the timer, returning false when the timer has already expired or been
stopped.  Returns the new pointee state together with the report. -/
def timerStop : TimerState → TimerState × Bool
  | .armed => (.stopped, true)
  | s => (s, false)

/-- `Deadline` (yellow.go lines 86-95): returns nil for a zero duration;
otherwise builds a stopwatch started at the current instant, arming a
one-shot timer exactly when the handler satisfies `TimedOutHandler`.  `now`
is the value `time.Now()` reads at the call. -/
def Deadline (d : Duration) (handler : Handler) (now : Time) : SwState :=
  if d = 0 then ⟨none, .stopped⟩
  else if handler.isTimedOutHandler then
    ⟨some ⟨handler, now, d, some ⟨now + d, now⟩⟩, .armed⟩
  else
    ⟨some ⟨handler, now, d, none⟩, .stopped⟩

/-- `Stopwatch.Done` (yellow.go lines 62-75): a no-op on a nil stopwatch; on
the nil-timer path it compares `time.Since(d.started)` against the deadline
and invokes `Completed(started)` when the elapsed time strictly exceeds it;
on the timer path it calls `d.t.Stop()` and invokes `Completed(started)`
exactly when the stop report is false.  `now` is the instant of the call;
the result pairs the new state with the handler invocations performed. -/
def Done (w : SwState) (now : Time) : SwState × List Event :=
  match w.sw with
  | none => (w, [])
  | some sw =>
    match sw.t with
    | none =>
      (w, if sw.d < now - sw.started then [Event.completed sw.started] else [])
    | some _ =>
      let r := timerStop w.ts
      (⟨w.sw, r.1⟩, if r.2 then [] else [Event.completed sw.started])

/-- The Go runtime executing the `time.AfterFunc` callback at instant `ft`:
an armed timer whose expiry has been reached fires once, invoking
`handler.TimedOut` with the start instant captured by the closure. -/
def fireTimer (w : SwState) (ft : Time) : SwState × List Event :=
  match w.sw with
  | none => (w, [])
  | some sw =>
    match sw.t with
    | none => (w, [])
    | some tm =>
      if w.ts = TimerState.armed ∧ tm.expiry ≤ ft then
        (⟨w.sw, TimerState.fired⟩, [Event.timedOut tm.cap])
      else (w, [])

/-- Deterministic-time scheduler abstraction for the Go runtime: by the
instant `k` at which the caller resolves, the armed callback has run exactly
when its expiry lies strictly before `k`; a callback racing with the
resolution at instant `k` itself is resolved in favor of the caller, matching
the strict comparison used by the synchronous path. -/
def advanceTo (w : SwState) (k : Time) : SwState × List Event :=
  match w.sw with
  | none => (w, [])
  | some sw =>
    match sw.t with
    | none => (w, [])
    | some tm =>
      if w.ts = TimerState.armed ∧ tm.expiry < k then
        (⟨w.sw, TimerState.fired⟩, [Event.timedOut tm.cap])
      else (w, [])

/-- `DeadlineLog` (yellow.go lines 98-100): `Deadline` with a `logHandler`. -/
def DeadlineLog (d : Duration) (format : List Char) (args : List (List Char))
    (now : Time) : SwState :=
  Deadline d (Handler.logHandler format args) now

/-- `DeadlineLogWarn` (yellow.go lines 104-106): `Deadline` with a
`logWarningHandler`. -/
def DeadlineLogWarn (d : Duration) (format : List Char) (args : List (List Char))
    (now : Time) : SwState :=
  Deadline d (Handler.logWarningHandler format args) now

/-- C1: for every duration d > 0 and every handler lacking the
`TimedOutHandler` capability, `Deadline` builds a stopwatch with a nil timer,
and a single `Done()` call at instant k invokes `Completed` exactly once with
the instant captured at construction if and only if the elapsed time strictly
exceeds d, and invokes no handler method otherwise. -/
theorem deadline_sync_done_completed_iff
    (d : Int) (h : Handler) (now k : Int)
    (hd : 0 < d) (hcap : h.isTimedOutHandler = false) :
    (Deadline d h now).sw = some ⟨h, now, d, none⟩ ∧
    (Done (Deadline d h now) k).2 =
      (if d < k - now then [Event.completed now] else []) := by
  have hne : d ≠ 0 := by omega
  simp [Deadline, hne, hcap, Done]

theorem deadline_sync_done_completed_iff_witness :
    ((0 : Int) < 2 ∧ Handler.isTimedOutHandler (Handler.completedOnly 7) = false) ∧
    ((Deadline 2 (Handler.completedOnly 7) 0).sw =
        some ⟨Handler.completedOnly 7, 0, 2, none⟩ ∧
      (Done (Deadline 2 (Handler.completedOnly 7) 0) 5).2 =
        (if (2 : Int) < 5 - 0 then [Event.completed 0] else [])) :=
  ⟨⟨by decide, by decide⟩,
    deadline_sync_done_completed_iff 2 (Handler.completedOnly 7) 0 5
      (by decide) (by decide)⟩

/-- C3 counterexample: the stopwatch `Deadline(1, completedOnly)` resolved
twice at instant 5 delivers `Completed` on both calls — the second `Done()`
is not a no-op and the handler receives `Completed` twice in total,
contradicting the claimed at-most-once guarantee across repeated calls. -/
theorem done_not_idempotent_cex :
    (Done (Deadline 1 (Handler.completedOnly 0) 0) 5).2 = [Event.completed 0] ∧
    (Done (Done (Deadline 1 (Handler.completedOnly 0) 0) 5).1 5).2 =
      [Event.completed 0] := by
  decide

/-- C3 amended: each single `Done()` call delivers at most one notification,
and `Done()` on a nil stopwatch delivers none; the at-most-once guarantee
holds per call, not across repeated calls, since the code has no one-shot
guard and repeated calls past the deadline each deliver `Completed` again. -/
theorem done_single_call_at_most_one (w : SwState) (k : Int) :
    (Done w k).2.length ≤ 1 ∧ (Done ⟨none, w.ts⟩ k).2 = [] := by
  constructor
  · match hw : w.sw with
    | none => simp [Done, hw]
    | some sw =>
      match ht : sw.t with
      | none =>
        simp only [Done, hw, ht]
        split <;> simp
      | some tm =>
        simp only [Done, hw, ht]
        split <;> simp
  · simp [Done]

/-- C4: duration 0 yields the nil sentinel, and `Done()` on it is a safe
no-op invoking no handler method. -/
theorem deadline_zero_nil_noop (h : Handler) (now k : Int) :
    (Deadline 0 h now).sw = none ∧
    Done (Deadline 0 h now) k = (Deadline 0 h now, []) := by
  simp [Deadline, Done]

/-- C7: `HandleFunc` wraps a callback as a handler that does not satisfy the
`TimedOutHandler` capability, and its `Completed` body calls the wrapped
function exactly once with the same timestamp. -/
theorem handleFunc_completed_calls_once (f : Nat) (t : Int) :
    (HandleFunc f).isTimedOutHandler = false ∧
    funcHandlerCompleted f t = [(f, t)] :=
  ⟨rfl, rfl⟩

/-- C9: only the exact duration 0 yields the nil sentinel; every strictly
negative duration still builds a non-nil stopwatch, and on the nil-timer path
a `Done()` at any instant not before construction always delivers
`Completed`, since a nonnegative elapsed time strictly exceeds a negative
deadline. -/
theorem deadline_negative_duration_completes
    (d d2 : Int) (h : Handler) (now k : Int)
    (hd : d < 0) (hk : now ≤ k) :
    (Deadline d h now).sw ≠ none ∧
    ((Deadline d2 h now).sw = none → d2 = 0) ∧
    (h.isTimedOutHandler = false →
      (Done (Deadline d h now) k).2 = [Event.completed now]) := by
  have hne : d ≠ 0 := by omega
  refine ⟨?_, ?_, ?_⟩
  · cases hc : h.isTimedOutHandler <;> simp [Deadline, hne, hc]
  · intro hnil
    by_contra hne2
    cases hc : h.isTimedOutHandler <;> simp [Deadline, hne2, hc] at hnil
  · intro hcap
    have helap : d < k - now := by omega
    simp [Deadline, hne, hcap, Done, helap]

theorem deadline_negative_duration_completes_witness :
    ((-3 : Int) < 0 ∧ (0 : Int) ≤ 4) ∧
    ((Deadline (-3) (Handler.completedOnly 1) 0).sw ≠ none ∧
      ((Deadline 0 (Handler.completedOnly 1) 0).sw = none → (0 : Int) = 0) ∧
      (Handler.isTimedOutHandler (Handler.completedOnly 1) = false →
        (Done (Deadline (-3) (Handler.completedOnly 1) 0) 4).2 =
          [Event.completed 0])) :=
  ⟨⟨by decide, by decide⟩,
    deadline_negative_duration_completes (-3) 0 (Handler.completedOnly 1) 0 4
      (by decide) (by decide)⟩

/-- C10: neither resolution nor the timer callback mutates the stopwatch
after construction: the four fields (handler, started, d, t) are unchanged by
every `Done()` call and by the timer firing; only the one-shot state behind
the timer pointer advances. -/
theorem stopwatch_fields_immutable (w : SwState) (k ft : Int) :
    (Done w k).1.sw = w.sw ∧ (fireTimer w ft).1.sw = w.sw := by
  constructor
  · match hw : w.sw with
    | none => simp [Done, hw]
    | some sw =>
      match ht : sw.t with
      | none => simp [Done, hw, ht]
      | some tm => simp [Done, hw, ht]
  · match hw : w.sw with
    | none => simp [fireTimer, hw]
    | some sw =>
      match ht : sw.t with
      | none => simp [fireTimer, hw, ht]
      | some tm =>
        simp only [fireTimer, hw, ht]
        split <;> simp [hw]

/-- C2: for every duration d > 0 and every handler with the `TimedOutHandler`
capability, `Deadline` arms exactly one one-shot timer expiring at now + d
whose callback delivers `TimedOut` with the instant captured at construction
(whatever the firing instant) and never fires twice; `Done()` attempts to
stop the timer and delivers `Completed(started)` exactly when the stop
attempt fails, and nothing when it succeeds. -/
theorem deadline_async_timer_behavior
    (d : Int) (h : Handler) (now ft ft2 k : Int) (ts : TimerState)
    (hd : 0 < d) (hcap : h.isTimedOutHandler = true) :
    (Deadline d h now).sw = some ⟨h, now, d, some ⟨now + d, now⟩⟩ ∧
    (Deadline d h now).ts = TimerState.armed ∧
    (now + d ≤ ft →
      (fireTimer (Deadline d h now) ft).2 = [Event.timedOut now] ∧
      (fireTimer (fireTimer (Deadline d h now) ft).1 ft2).2 = []) ∧
    (ft < now + d → (fireTimer (Deadline d h now) ft).2 = []) ∧
    ((Done ⟨(Deadline d h now).sw, ts⟩ k).2 =
      if (timerStop ts).2 then [] else [Event.completed now]) := by
  have hne : d ≠ 0 := by omega
  refine ⟨by simp [Deadline, hne, hcap], by simp [Deadline, hne, hcap], ?_, ?_, ?_⟩
  · intro hft
    constructor
    · simp [Deadline, hne, hcap, fireTimer, hft]
    · simp [Deadline, hne, hcap, fireTimer, hft]
  · intro hft
    have : ¬ (now + d ≤ ft) := by omega
    simp [Deadline, hne, hcap, fireTimer, this]
  · cases ts <;> simp [Deadline, hne, hcap, Done, timerStop]

theorem deadline_async_timer_behavior_witness :
    ((0 : Int) < 2 ∧ Handler.isTimedOutHandler (Handler.withTimedOut 3) = true) ∧
    ((Deadline 2 (Handler.withTimedOut 3) 0).sw =
        some ⟨Handler.withTimedOut 3, 0, 2, some ⟨0 + 2, 0⟩⟩ ∧
      (Deadline 2 (Handler.withTimedOut 3) 0).ts = TimerState.armed ∧
      ((0 : Int) + 2 ≤ 5 →
        (fireTimer (Deadline 2 (Handler.withTimedOut 3) 0) 5).2 =
          [Event.timedOut 0] ∧
        (fireTimer (fireTimer (Deadline 2 (Handler.withTimedOut 3) 0) 5).1 6).2 = []) ∧
      ((5 : Int) < 0 + 2 →
        (fireTimer (Deadline 2 (Handler.withTimedOut 3) 0) 5).2 = []) ∧
      ((Done ⟨(Deadline 2 (Handler.withTimedOut 3) 0).sw, TimerState.fired⟩ 9).2 =
        if (timerStop TimerState.fired).2 then [] else [Event.completed 0])) :=
  ⟨⟨by decide, by decide⟩,
    deadline_async_timer_behavior 2 (Handler.withTimedOut 3) 0 5 6 9
      TimerState.fired (by decide) (by decide)⟩

/-- C5: for the same construction instant, deadline d > 0 and resolution
instant k, the synchronous nil-timer path and the asynchronous timer path
(with the timer scheduler advanced to the resolution instant) deliver the
same notifications from `Done()`, namely `Completed(now)` exactly when the
elapsed time k - now strictly exceeds d. -/
theorem sync_async_completed_equiv
    (d : Int) (hb he : Handler) (now k : Int) (hd : 0 < d)
    (hbc : hb.isTimedOutHandler = false) (hec : he.isTimedOutHandler = true) :
    (Done (Deadline d hb now) k).2 =
      (Done (advanceTo (Deadline d he now) k).1 k).2 ∧
    ((Done (Deadline d hb now) k).2 =
      if d < k - now then [Event.completed now] else []) := by
  have hne : d ≠ 0 := by omega
  have hsync : (Done (Deadline d hb now) k).2 =
      if d < k - now then [Event.completed now] else [] := by
    simp [Deadline, hne, hbc, Done]
  refine ⟨?_, hsync⟩
  rw [hsync]
  by_cases hc : now + d < k
  · have hlt : d < k - now := by omega
    simp [Deadline, hne, hec, advanceTo, Done, timerStop, hc, hlt]
  · have hlt : ¬ d < k - now := by omega
    simp [Deadline, hne, hec, advanceTo, Done, timerStop, hc, hlt]

theorem sync_async_completed_equiv_witness :
    ((0 : Int) < 1 ∧ Handler.isTimedOutHandler (Handler.completedOnly 0) = false ∧
      Handler.isTimedOutHandler (Handler.withTimedOut 0) = true) ∧
    ((Done (Deadline 1 (Handler.completedOnly 0) 0) 5).2 =
        (Done (advanceTo (Deadline 1 (Handler.withTimedOut 0) 0) 5).1 5).2 ∧
      ((Done (Deadline 1 (Handler.completedOnly 0) 0) 5).2 =
        if (1 : Int) < 5 - 0 then [Event.completed 0] else [])) :=
  ⟨⟨by decide, by decide, by decide⟩,
    sync_async_completed_equiv 1 (Handler.completedOnly 0) (Handler.withTimedOut 0)
      0 5 (by decide) (by decide) (by decide)⟩

/-- C8: for every d > 0, `DeadlineLog` builds a stopwatch with a nil timer —
its `logHandler` lacks the `TimedOutHandler` capability, so the synchronous
elapsed-check path is taken and the timer callback can never deliver a
`TimedOut` notification — while `DeadlineLogWarn` always arms the one-shot
timer, since its `logWarningHandler` implements `TimedOut`. -/
theorem deadlineLog_sync_deadlineLogWarn_armed
    (d : Int) (format : List Char) (args : List (List Char)) (now ft : Int)
    (hd : 0 < d) :
    (DeadlineLog d format args now).sw =
      some ⟨Handler.logHandler format args, now, d, none⟩ ∧
    (fireTimer (DeadlineLog d format args now) ft).2 = [] ∧
    (DeadlineLogWarn d format args now).sw =
      some ⟨Handler.logWarningHandler format args, now, d, some ⟨now + d, now⟩⟩ ∧
    (DeadlineLogWarn d format args now).ts = TimerState.armed := by
  have hne : d ≠ 0 := by omega
  refine ⟨?_, ?_, ?_, ?_⟩
  · simp [DeadlineLog, Deadline, hne, Handler.isTimedOutHandler]
  · simp [DeadlineLog, Deadline, hne, Handler.isTimedOutHandler, fireTimer]
  · simp [DeadlineLogWarn, Deadline, hne, Handler.isTimedOutHandler]
  · simp [DeadlineLogWarn, Deadline, hne, Handler.isTimedOutHandler]

theorem deadlineLog_sync_deadlineLogWarn_armed_witness :
    ((0 : Int) < 4) ∧
    ((DeadlineLog 4 [] [] 0).sw =
        some ⟨Handler.logHandler [] [], 0, 4, none⟩ ∧
      (fireTimer (DeadlineLog 4 [] [] 0) 9).2 = [] ∧
      (DeadlineLogWarn 4 [] [] 0).sw =
        some ⟨Handler.logWarningHandler [] [], 0, 4, some ⟨0 + 4, 0⟩⟩ ∧
      (DeadlineLogWarn 4 [] [] 0).ts = TimerState.armed) :=
  ⟨by decide,
    deadlineLog_sync_deadlineLogWarn_armed 4 [] [] 0 9 (by decide)⟩

/-- A literal character other than `%` at the head of a format string is
copied verbatim by the formatting machinery. -/
theorem printfRender_cons_of_ne (c : Char) (l : List Char)
    (args : List (List Char)) (hc : c ≠ '%') :
    printfRender (c :: l) args = c :: printfRender l args := by
  rw [printfRender.eq_def]
  simp [hc]

/-- A format segment containing no `%` is copied verbatim by the formatting
machinery, consuming no arguments. -/
theorem printfRender_append_of_no_verb (pre rest : List Char)
    (args : List (List Char)) (hp : ∀ c ∈ pre, c ≠ '%') :
    printfRender (pre ++ rest) args = pre ++ printfRender rest args := by
  induction pre with
  | nil => simp
  | cons c cs ih =>
    have hc : c ≠ '%' := hp c (List.mem_cons_self c cs)
    have hcs : ∀ x ∈ cs, x ≠ '%' := fun x hx => hp x (List.mem_cons_of_mem c hx)
    rw [List.cons_append, printfRender_cons_of_ne c (cs ++ rest) args hc, ih hcs,
      List.cons_append]

/-- C6: the two log lines are exactly the fixed prefix `"Taking too long: "`
respectively `"Finally finished: "` followed by the rendered message template
and elapsed duration, and the two lines are distinct for every template,
arguments and elapsed strings. -/
theorem log_lines_prefixed_and_distinct
    (format : List Char) (args : List (List Char)) (e1 e2 : List Char) :
    logWarningHandlerTimedOut format args e1 =
      "Taking too long: ".toList ++
        printfRender (format ++ (" ".toList ++ e1)) args ∧
    logHandlerCompleted format args e2 =
      "Finally finished: ".toList ++
        printfRender (format ++ (" ".toList ++ e2)) args ∧
    logWarningHandlerTimedOut format args e1 ≠
      logHandlerCompleted format args e2 := by
  have h1 : ∀ c ∈ "Taking too long: ".toList, c ≠ '%' := by decide
  have h2 : ∀ c ∈ "Finally finished: ".toList, c ≠ '%' := by decide
  have e1eq : logWarningHandlerTimedOut format args e1 =
      "Taking too long: ".toList ++
        printfRender (format ++ (" ".toList ++ e1)) args := by
    unfold logWarningHandlerTimedOut
    rw [List.append_assoc]
    exact printfRender_append_of_no_verb _ _ _ h1
  have e2eq : logHandlerCompleted format args e2 =
      "Finally finished: ".toList ++
        printfRender (format ++ (" ".toList ++ e2)) args := by
    unfold logHandlerCompleted
    rw [List.append_assoc]
    exact printfRender_append_of_no_verb _ _ _ h2
  refine ⟨e1eq, e2eq, ?_⟩
  rw [e1eq, e2eq]
  intro heq
  have hTF : (some 'T' : Option Char) = some 'F' := congrArg List.head? heq
  exact absurd hTF (by decide)

end Yellow
